import Mathlib

/-!
Shallow embedding of `torch/csrc/jit/serialization/flatbuffer_serializer_jit.cpp`:
the flatbuffer-based save/load glue for JIT modules.  The functions defined in
that file (`parse_and_initialize_jit_module`, `save_jit_module_to_bytes`,
`save_jit_module_to_write_func`, `register_flatbuffer_all`) are embedded from the
source; the collaborators they call (FlatbufferLoader, `parseExtraFiles`,
`save_mobile_module_to_bytes`, the format adapter and the upgrader machinery)
live elsewhere in the repository and are modelled from the specification.
Byte buffers are modelled as lists of natural numbers; the process-global
state read by the save path (compilation options, registered hooks) is threaded
explicitly.
-/

/-- Serialized byte streams are modelled as lists of natural numbers. -/
abbrev Bytes := List Nat

/-- Error taxonomy of the load/save core (spec section 7). -/
inductive LoadError where
  | formatError
  | unsupportedVersionError
  | ioError
  | upgradeError
deriving DecidableEq

deriving instance DecidableEq for Except

/-- Constant-pool values (`IValue`): opaque typed values, modelled as tagged
integers and strings.  Order in a pool is significant. -/
inductive IValue where
  | intVal : Int → IValue
  | strVal : String → IValue
deriving DecidableEq

/-- One bytecode instruction of the portable (mobile) module: an operator name
plus an immediate argument. -/
structure Instr where
  op : String
  arg : Nat
deriving DecidableEq

/-- Map from file name to raw byte content, modelled as an association list
looked up left to right (the first binding of a key wins), mirroring a
`std::map` used for lookup and insert-if-absent. -/
abbrev ExtraFilesMap := List (String × Bytes)

/-- Logical content of one serialized artifact: declared bytecode schema
version, the mobile bytecode table, the module object state, the extra-files
table, the embedded JIT source-text bundle and the JIT constant pool. -/
structure Artifact where
  version : Nat
  bytecode : List Instr
  state : Nat
  extraFiles : ExtraFilesMap
  jitSources : ExtraFilesMap
  jitConstants : List IValue
deriving DecidableEq

/-- Encode a single natural number as one stream symbol. -/
def encNat (n : Nat) : Bytes := [n]

/-- Consume one symbol from the stream. -/
def decNat : Bytes → Option (Nat × Bytes)
  | [] => none
  | n :: r => some (n, r)

/-- Encode a string as its length followed by its character codes. -/
def encStr (s : String) : Bytes := s.data.length :: s.data.map Char.toNat

/-- Consume a length-prefixed string from the stream. -/
def decStr (b : Bytes) : Option (String × Bytes) :=
  (decNat b).bind fun p =>
    if p.1 ≤ p.2.length then
      some (String.mk ((p.2.take p.1).map Char.ofNat), p.2.drop p.1)
    else none

/-- Encode a raw byte blob as its length followed by its content. -/
def encBytes (v : Bytes) : Bytes := v.length :: v

/-- Consume a length-prefixed byte blob from the stream. -/
def decBytes (b : Bytes) : Option (Bytes × Bytes) :=
  (decNat b).bind fun p =>
    if p.1 ≤ p.2.length then some (p.2.take p.1, p.2.drop p.1) else none

/-- Concatenate the encodings of the elements of a list. -/
def encListAux (f : α → Bytes) : List α → Bytes
  | [] => []
  | x :: xs => f x ++ encListAux f xs

/-- Encode a list as its length followed by the encodings of its elements. -/
def encListWith (f : α → Bytes) (xs : List α) : Bytes := xs.length :: encListAux f xs

/-- Consume exactly `n` elements from the stream with the element decoder `g`. -/
def decListAux (g : Bytes → Option (α × Bytes)) : Nat → Bytes → Option (List α × Bytes)
  | 0, b => some ([], b)
  | n + 1, b =>
    (g b).bind fun p => (decListAux g n p.2).bind fun q => some (p.1 :: q.1, q.2)

/-- Consume a length-prefixed list from the stream. -/
def decListWith (g : Bytes → Option (α × Bytes)) (b : Bytes) : Option (List α × Bytes) :=
  (decNat b).bind fun p => decListAux g p.1 p.2

/-- Encode one named-file entry. -/
def encFile (kv : String × Bytes) : Bytes := encStr kv.1 ++ encBytes kv.2

/-- Consume one named-file entry from the stream. -/
def decFile (b : Bytes) : Option ((String × Bytes) × Bytes) :=
  (decStr b).bind fun p => (decBytes p.2).bind fun q => some ((p.1, q.1), q.2)

/-- Encode one constant-pool value, tagged by kind. -/
def encIValue : IValue → Bytes
  | .intVal (Int.ofNat n) => [0, n]
  | .intVal (Int.negSucc n) => [1, n]
  | .strVal s => 2 :: encStr s

/-- Consume one constant-pool value from the stream. -/
def decIValue : Bytes → Option (IValue × Bytes)
  | 0 :: n :: r => some (.intVal (Int.ofNat n), r)
  | 1 :: n :: r => some (.intVal (Int.negSucc n), r)
  | 2 :: r => (decStr r).bind fun p => some (.strVal p.1, p.2)
  | _ => none

/-- Encode one bytecode instruction. -/
def encInstr (i : Instr) : Bytes := encStr i.op ++ [i.arg]

/-- Consume one bytecode instruction from the stream. -/
def decInstr (b : Bytes) : Option (Instr × Bytes) :=
  (decStr b).bind fun p => (decNat p.2).bind fun q => some (⟨p.1, q.1⟩, q.2)

/-- Magic identifier that opens every artifact. -/
def magicBytes : Bytes := [80, 84, 77, 70]

/-- Size of the fixed artifact header: magic, version field and the
table-of-contents offset field. -/
def headerSize : Nat := 6

/-- Encode the table region of an artifact (everything after the header). -/
def encodePayload (a : Artifact) : Bytes :=
  encListWith encInstr a.bytecode ++
    ([a.state] ++
      (encListWith encFile a.extraFiles ++
        (encListWith encFile a.jitSources ++ encListWith encIValue a.jitConstants)))

/-- Encode a whole artifact: magic, declared version, declared
table-of-contents offset, then the table region. -/
def encodeArtifact (a : Artifact) : Bytes :=
  80 :: 84 :: 77 :: 70 :: a.version :: headerSize :: encodePayload a

/-- Declared table-of-contents offset of a buffer: the sixth header field. -/
def tocOffsetOf (b : Bytes) : Nat := b.getD 5 0

/-- Decode the table region of an artifact; every table must parse and the
region must be fully consumed. -/
def decodePayload (version : Nat) (b : Bytes) : Option Artifact :=
  (decListWith decInstr b).bind fun p1 =>
    (decNat p1.2).bind fun p2 =>
      (decListWith decFile p2.2).bind fun p3 =>
        (decListWith decFile p3.2).bind fun p4 =>
          (decListWith decIValue p4.2).bind fun p5 =>
            if p5.2.isEmpty then some ⟨version, p1.1, p2.1, p3.1, p4.1, p5.1⟩
            else none

/-- Modelled from the spec: the Deserializer's header validation and region
walk (`mobile::serialization::GetMutableModule` plus
`FlatbufferLoader::parseModule`, which live outside this fragment).  Per spec
section 4.2 it validates the magic header, reads the schema-version field,
checks the declared table-of-contents against the buffer bounds and fails with
`FormatError` on any truncated or malformed buffer. -/
def decodeArtifact (b : Bytes) : Except LoadError Artifact :=
  if b.length < headerSize then .error .formatError
  else if b.take 4 ≠ magicBytes then .error .formatError
  else
    let version := b.getD 4 0
    let toc := tocOffsetOf b
    if toc < headerSize ∨ b.length < toc then .error .formatError
    else
      match decodePayload version (b.drop toc) with
      | none => .error .formatError
      | some a => .ok a

/-- Executable JIT module: compiled method source files, constant pool, an
opaque object-state identifier (the module's `_ivalue()` object graph of
parameters and attributes), and the optionally attached backing buffer
(`set_delete_memory`).  Behavioral equivalence of modules is equality of the
first three fields. -/
structure JitModule where
  src : ExtraFilesMap
  consts : List IValue
  state : Nat
  deleteMemory : Option Bytes
deriving DecidableEq

/-- Portable (mobile) module produced by the Deserializer: a bytecode table
plus the object state. -/
structure MobileModule where
  bytecode : List Instr
  state : Nat
deriving DecidableEq

/-- Compilation options read from process-global state by the save path. -/
structure CompilationOptions where
  includeDebugInfo : Bool
deriving DecidableEq

/-- Which save hook a process has installed (`_save_jit_module_to`). -/
inductive SaveHook where
  | saveJitWriteFunc
deriving DecidableEq

/-- Which load hook a process has installed
(`_load_jit_module_from_flatbuffer_bytes`). -/
inductive LoadHook where
  | parseJitFlatbuffer
deriving DecidableEq

/-- Registration state of the flatbuffer loader/serializer hooks. -/
structure HookState where
  loaderRegistered : Bool
  serializerRegistered : Bool
  saveHook : Option SaveHook
  loadHook : Option LoadHook
deriving DecidableEq

/-- Process-global state visible to this translation unit: the compilation
options consulted by the save path and the registered hooks.  The C++ reads
and writes this state ambiently; the embedding threads it explicitly. -/
structure GlobalState where
  options : CompilationOptions
  hooks : HookState
deriving DecidableEq

/-- Modelled from the spec: `getOptionsFromGlobal` (defined in
`export_bytecode.cpp`, outside this fragment) reads the current compilation
options from process-global state. -/
def getOptionsFromGlobal (g : GlobalState) : CompilationOptions := g.options

/-- Modelled from the spec: `jitModuleToPythonCodeAndConstants` (Format
Adapter, save direction; defined outside this fragment) traverses the
module's compiled methods and extracts the source text bundle together with
the flattened constant pool, indices preserved (spec section 4.5). -/
def jitModuleToPythonCodeAndConstants (m : JitModule) : ExtraFilesMap × List IValue :=
  (m.src, m.consts)

/-- Modelled from the spec: the lowering of compiled methods to the
restricted mobile bytecode table (spec section 4.4, step 2). -/
def lowerInstrs (src : ExtraFilesMap) : List Instr :=
  src.map (fun f => ⟨f.1, f.2.length⟩)

/-- Modelled from the spec: `jitModuleToMobile` (defined in
`export_bytecode.cpp`, outside this fragment) lowers an executable module to
the mobile form; the compilation options decide whether debug info is
included in the emitted table (spec section 4.4: options such as whether to
include debug/source info). -/
def jitModuleToMobile (m : JitModule) (options : CompilationOptions) : MobileModule :=
  { bytecode :=
      lowerInstrs m.src ++ (if options.includeDebugInfo then [⟨"DEBUG_INFO", 0⟩] else []),
    state := m.state }

/-- Current bytecode schema version stamped into every saved artifact. -/
def kCurrentVersion : Nat := 9

/-- Oldest bytecode schema version the upgraders can still bridge. -/
def kMinSupportedVersion : Nat := 4

/-- Newest bytecode schema version this runtime understands. -/
def kMaxSupportedVersion : Nat := kCurrentVersion

/-- Modelled from the spec: `save_mobile_module_to_bytes` (the Serializer,
defined in `flatbuffer_serializer.cpp`, outside this fragment) encodes the
mobile module, the caller's extra files, the JIT source bundle and the JIT
constant pool into one artifact stamped with the current schema version. -/
def save_mobile_module_to_bytes (m : MobileModule) (extra_files : ExtraFilesMap)
    (jit_sources : ExtraFilesMap) (jit_constants : List IValue) : Bytes :=
  encodeArtifact ⟨kCurrentVersion, m.bytecode, m.state, extra_files, jit_sources, jit_constants⟩

/-- Embedded from the source: `save_jit_module_to_bytes`.  Extracts python
code and constants via the format adapter, reads the compilation options from
process-global state, lowers the module to mobile form and serializes. -/
def save_jit_module_to_bytes (g : GlobalState) (module : JitModule)
    (extra_files : ExtraFilesMap) : Bytes :=
  let pc := jitModuleToPythonCodeAndConstants module
  let options := getOptionsFromGlobal g
  let mobilem := jitModuleToMobile module options
  save_mobile_module_to_bytes mobilem extra_files pc.1 pc.2

/-- Insert a binding only when the key is not already present. -/
def insertIfAbsent (m : ExtraFilesMap) (k : String) (v : Bytes) : ExtraFilesMap :=
  if (m.lookup k).isSome then m else m ++ [(k, v)]

/-- Modelled from the spec: `parseExtraFiles` (defined in
`flatbuffer_loader.cpp`, outside this fragment) walks the artifact's
extra-files table and merges it into the caller-supplied map with
insert-if-absent semantics (spec sections 4.2 and 9: existing keys are left
untouched, new keys added). -/
def parseExtraFiles (entries : ExtraFilesMap) (extra_files : ExtraFilesMap) : ExtraFilesMap :=
  entries.foldl (fun acc e => insertIfAbsent acc e.1 e.2) extra_files

/-- Modelled from the spec: `jitModuleFromSourceAndConstants` (Format Adapter,
load direction; defined outside this fragment) recompiles the source text
bundle, binds the constant pool by index and rejects schema versions outside
the supported window with `UnsupportedVersionError` (spec sections 4.2 and
4.5); for an in-window version the upgraders bring semantics to current, so
the reconstructed module carries the bundle and pool unchanged. -/
def jitModuleFromSourceAndConstants (ivalue : Nat) (source : ExtraFilesMap)
    (constants : List IValue) (version : Nat) : Except LoadError JitModule :=
  if version < kMinSupportedVersion ∨ kMaxSupportedVersion < version then
    .error .unsupportedVersionError
  else .ok ⟨source, constants, ivalue, none⟩

/-- Embedded from the source: `parse_and_initialize_jit_module`.  Decodes the
flatbuffer module from the buffer, parses the mobile module, merges the
artifact's extra files into the caller's map, extracts the JIT source bundle
and constants into fresh locals handed to the format adapter, and attaches
the backing buffer to the resulting module via `set_delete_memory`.  As in
the source, the `size` argument is not consulted by the body. -/
def parse_and_initialize_jit_module (data : Bytes) (size : Nat)
    (extra_files : ExtraFilesMap) : Except LoadError (JitModule × ExtraFilesMap) :=
  match decodeArtifact data with
  | .error e => .error e
  | .ok flatbuffer_module =>
    let mobilem : MobileModule := ⟨flatbuffer_module.bytecode, flatbuffer_module.state⟩
    let ef := parseExtraFiles flatbuffer_module.extraFiles extra_files
    let files := flatbuffer_module.jitSources
    let constants := flatbuffer_module.jitConstants
    match jitModuleFromSourceAndConstants mobilem.state files constants
        flatbuffer_module.version with
    | .error e => .error e
    | .ok m => .ok ({ m with deleteMemory := some data }, ef)

/-- Portable module as seen by the Upgrader Applier: a bytecode instruction
stream plus the declared schema version. -/
structure PortableModule where
  bytecode : List Instr
  version : Nat
deriving DecidableEq

/-- Modelled from the spec: the process-global upgrader registry built once by
`populate_upgraders_graph_map` (defined in `upgraders_entry.cpp`, outside this
fragment): operator names mapped to their upgrader replacements, compiled in
and immutable after initialization (spec sections 4.3 and 9). -/
def upgradersGraphMap : List (String × String) :=
  [("aten::div_Tensor", "upgraders::div_Tensor_0_3"),
   ("aten::linspace", "upgraders::linspace_0_7")]

/-- Rewrite one instruction through the upgrader registry. -/
def rewriteInstr (i : Instr) : Instr :=
  match upgradersGraphMap.lookup i.op with
  | some newOp => ⟨newOp, i.arg⟩
  | none => i

/-- Modelled from the spec: the Upgrader Applier (spec section 4.3).  When the
declared version equals the current runtime version the stage is a
conditional no-op; otherwise it rewrites the instruction stream in one pass
and stamps the current version. -/
def applyUpgraders (p : PortableModule) : PortableModule :=
  if p.version = kCurrentVersion then p
  else ⟨p.bytecode.map rewriteInstr, kCurrentVersion⟩

/-- Modelled from the spec: `register_flatbuffer_loader` (defined in
`flatbuffer_loader.cpp`, outside this fragment) records the flatbuffer load
hook in process-global state and reports success. -/
def register_flatbuffer_loader (g : GlobalState) : Bool × GlobalState :=
  (true, { g with hooks := { g.hooks with loaderRegistered := true } })

/-- Modelled from the spec: `register_flatbuffer_serializer` (defined in
`flatbuffer_serializer.cpp`, outside this fragment) records the flatbuffer
save hook in process-global state and reports success. -/
def register_flatbuffer_serializer (g : GlobalState) : Bool × GlobalState :=
  (true, { g with hooks := { g.hooks with serializerRegistered := true } })

/-- Embedded from the source: `register_flatbuffer_all` registers the loader
and serializer and installs the two function-pointer hooks
`_save_jit_module_to` and `_load_jit_module_from_flatbuffer_bytes`, then
returns `true` (the value stored in the one-time-init flag
`kFlatbufferSerializerJitInitialized`). -/
def register_flatbuffer_all (g : GlobalState) : Bool × GlobalState :=
  let g1 := (register_flatbuffer_loader g).2
  let g2 := (register_flatbuffer_serializer g1).2
  (true,
    { g2 with
      hooks :=
        { g2.hooks with
          saveHook := some .saveJitWriteFunc, loadHook := some .parseJitFlatbuffer } })

/-- Iterate `register_flatbuffer_all` on the global state `n` times. -/
def registerAllIter : Nat → GlobalState → GlobalState
  | 0, g => g
  | n + 1, g => registerAllIter n (register_flatbuffer_all g).2

/-- Embedded from the source: `save_jit_module_to_write_func`.  The debug-info
flag is received and explicitly discarded (`(void)save_mobile_debug_info`);
the encoded buffer is produced once and the writer callback is invoked with
its data pointer and total length.  The callback is modelled as a state
transformer so that its invocations are observable. -/
def save_jit_module_to_write_func {σ : Type} (g : GlobalState) (module : JitModule)
    (extra_files : ExtraFilesMap) ( save_mobile_debug_info : Bool)
    (writer_func : Bytes → Nat → σ → σ) (s : σ) : σ :=
  let buffer := save_jit_module_to_bytes g module extra_files
  writer_func buffer buffer.length s

theorem decNat_enc (n : Nat) (r : Bytes) : decNat (encNat n ++ r) = some (n, r) := rfl

theorem decStr_enc (s : String) (r : Bytes) : decStr (encStr s ++ r) = some (s, r) := by
  have h1 : List.take s.data.length (s.data.map Char.toNat ++ r) = s.data.map Char.toNat :=
    List.take_left' (by simp)
  have h2 : List.drop s.data.length (s.data.map Char.toNat ++ r) = r :=
    List.drop_left' (by simp)
  simp only [encStr, decStr, List.cons_append, decNat, Option.some_bind]
  rw [if_pos (by simp)]
  rw [h1, h2]
  simp [List.map_map, Function.comp_def, Char.ofNat_toNat]

theorem decBytes_enc (v : Bytes) (r : Bytes) : decBytes (encBytes v ++ r) = some (v, r) := by
  simp only [encBytes, decBytes, List.cons_append, decNat, Option.some_bind]
  rw [if_pos (by simp)]
  rw [List.take_left, List.drop_left]

theorem decListAux_enc (g : Bytes → Option (α × Bytes)) (f : α → Bytes)
    (hg : ∀ x r, g (f x ++ r) = some (x, r)) (xs : List α) (r : Bytes) :
    decListAux g xs.length (encListAux f xs ++ r) = some (xs, r) := by
  induction xs generalizing r with
  | nil => rfl
  | cons x xs ih =>
    simp only [List.length_cons, encListAux, List.append_assoc, decListAux]
    rw [hg, Option.some_bind, ih, Option.some_bind]

theorem decListWith_enc (g : Bytes → Option (α × Bytes)) (f : α → Bytes)
    (hg : ∀ x r, g (f x ++ r) = some (x, r)) (xs : List α) (r : Bytes) :
    decListWith g (encListWith f xs ++ r) = some (xs, r) := by
  simp only [encListWith, decListWith, List.cons_append, decNat, Option.some_bind]
  exact decListAux_enc g f hg xs r

theorem decFile_enc (kv : String × Bytes) (r : Bytes) : decFile (encFile kv ++ r) = some (kv, r) := by
  simp only [encFile, decFile, List.append_assoc]
  rw [decStr_enc, Option.some_bind, decBytes_enc, Option.some_bind]

theorem decIValue_enc (v : IValue) (r : Bytes) : decIValue (encIValue v ++ r) = some (v, r) := by
  match v with
  | .intVal (Int.ofNat n) => rfl
  | .intVal (Int.negSucc n) => rfl
  | .strVal s =>
    simp only [encIValue, List.cons_append, decIValue]
    rw [decStr_enc, Option.some_bind]

theorem decInstr_enc (i : Instr) (r : Bytes) : decInstr (encInstr i ++ r) = some (i, r) := by
  simp only [encInstr, decInstr, List.append_assoc, List.cons_append]
  rw [decStr_enc, Option.some_bind]
  rfl

theorem decodePayload_enc (v : Nat) (a : Artifact) :
    decodePayload v (encodePayload a) = some { a with version := v } := by
  have hlast : encListWith encIValue a.jitConstants =
      encListWith encIValue a.jitConstants ++ ([] : Bytes) := by simp
  simp only [encodePayload, decodePayload]
  rw [decListWith_enc decInstr encInstr decInstr_enc, Option.some_bind]
  rw [show decNat ([a.state] ++ (encListWith encFile a.extraFiles ++
      (encListWith encFile a.jitSources ++ encListWith encIValue a.jitConstants))) =
      some (a.state, encListWith encFile a.extraFiles ++
        (encListWith encFile a.jitSources ++ encListWith encIValue a.jitConstants)) from rfl,
    Option.some_bind]
  rw [decListWith_enc decFile encFile decFile_enc, Option.some_bind]
  rw [decListWith_enc decFile encFile decFile_enc, Option.some_bind]
  rw [hlast, decListWith_enc decIValue encIValue decIValue_enc, Option.some_bind]
  rfl

theorem decodeArtifact_enc (a : Artifact) : decodeArtifact (encodeArtifact a) = .ok a := by
  have hlen : (encodeArtifact a).length = headerSize + (encodePayload a).length := by
    simp only [encodeArtifact, List.length_cons, headerSize]
    omega
  have htake : (encodeArtifact a).take 4 = magicBytes := rfl
  have hv : (encodeArtifact a).getD 4 0 = a.version := rfl
  have ht : tocOffsetOf (encodeArtifact a) = headerSize := rfl
  have hd : (encodeArtifact a).drop headerSize = encodePayload a := rfl
  simp only [decodeArtifact]
  rw [if_neg (by rw [hlen]; omega)]
  rw [if_neg (by simp [htake])]
  rw [ht, hv, hd]
  rw [if_neg (by rw [hlen]; omega)]
  rw [decodePayload_enc]

theorem lookup_insertIfAbsent (m : ExtraFilesMap) (a : String) (v : Bytes) (k : String) :
    (insertIfAbsent m a v).lookup k = (m.lookup k).or (if k = a then some v else none) := by
  unfold insertIfAbsent
  by_cases h : (m.lookup a).isSome
  · rw [if_pos h]
    by_cases hk : k = a
    · subst hk
      obtain ⟨w, hw⟩ := Option.isSome_iff_exists.mp h
      rw [hw]
      rfl
    · simp [hk, Option.or_none]
  · rw [if_neg h]
    rw [List.lookup_append]
    congr 1
    by_cases hk : k = a
    · subst hk
      simp
    · simp [List.lookup_cons, beq_eq_false_iff_ne.mpr hk, hk]

theorem lookup_parseExtraFiles (es : ExtraFilesMap) (m : ExtraFilesMap) (k : String) :
    (parseExtraFiles es m).lookup k = (m.lookup k).or (es.lookup k) := by
  induction es generalizing m with
  | nil => simp [parseExtraFiles, Option.or_none]
  | cons e es ih =>
    obtain ⟨a, v⟩ := e
    simp only [parseExtraFiles, List.foldl_cons] at ih ⊢
    rw [ih, lookup_insertIfAbsent, List.lookup_cons]
    by_cases hk : k = a
    · subst hk
      simp only [beq_self_eq_true]
      cases hm : m.lookup k <;> simp
    · simp only [beq_eq_false_iff_ne.mpr hk]
      cases hm : m.lookup k <;> simp [hk]

theorem parse_general (data : Bytes) (sz : Nat) (ef : ExtraFilesMap) :
    parse_and_initialize_jit_module data sz ef =
      (decodeArtifact data).bind fun a =>
        (jitModuleFromSourceAndConstants a.state a.jitSources a.jitConstants a.version).bind
          fun m => .ok ({ m with deleteMemory := some data }, parseExtraFiles a.extraFiles ef) := by
  cases hd : decodeArtifact data with
  | error e => simp [parse_and_initialize_jit_module, hd, Except.bind]
  | ok a =>
    simp only [parse_and_initialize_jit_module, hd]
    cases hj : jitModuleFromSourceAndConstants a.state a.jitSources a.jitConstants a.version with
    | error e => simp [hj, Except.bind]
    | ok m => simp [hj, Except.bind]

theorem parse_enc (a : Artifact) (sz : Nat) (ef : ExtraFilesMap) :
    parse_and_initialize_jit_module (encodeArtifact a) sz ef =
      if a.version < kMinSupportedVersion ∨ kMaxSupportedVersion < a.version then
        .error .unsupportedVersionError
      else
        .ok (⟨a.jitSources, a.jitConstants, a.state, some (encodeArtifact a)⟩,
          parseExtraFiles a.extraFiles ef) := by
  rw [parse_general, decodeArtifact_enc]
  simp only [Except.bind, jitModuleFromSourceAndConstants]
  by_cases hv : a.version < kMinSupportedVersion ∨ kMaxSupportedVersion < a.version
  · rw [if_pos hv, if_pos hv]
  · rw [if_neg hv, if_neg hv]

/-- Hook state with nothing registered. -/
def hooksClear : HookState := ⟨false, false, none, none⟩

/-- Hook state with everything registered. -/
def hooksFull : HookState :=
  ⟨true, true, some .saveJitWriteFunc, some .parseJitFlatbuffer⟩

/-- A small executable module used as a concrete input. -/
def exJitModule : JitModule := ⟨[("m.py", [104, 105])], [IValue.intVal 1], 0, none⟩

/-- Global state with debug info disabled and no hooks registered. -/
def gNoDebug : GlobalState := ⟨⟨false⟩, hooksClear⟩

/-- Global state with debug info enabled and no hooks registered. -/
def gDebug : GlobalState := ⟨⟨true⟩, hooksClear⟩

/-- Global state with debug info disabled and all hooks registered. -/
def gHooked : GlobalState := ⟨⟨false⟩, hooksFull⟩

/-- C5 counterexample: `save_jit_module_to_bytes` is not independent of state
other than its two arguments — the same module and extra-files map serialize
to different byte sequences under two process-global option states, because
the body reads `getOptionsFromGlobal()`. -/
theorem save_depends_on_global_state :
    save_jit_module_to_bytes gNoDebug exJitModule [] ≠
      save_jit_module_to_bytes gDebug exJitModule [] := by decide

/-- C5 (amended): `save_jit_module_to_bytes` is deterministic and
side-effect-free, but is a pure function of the module, the extra-files map
and the process-global compilation options it reads: two invocations agree
whenever the global compilation options agree, regardless of any other global
state. -/
theorem save_deterministic_modulo_options (g g2 : GlobalState)
    (h : g.options = g2.options) (module : JitModule) (extra_files : ExtraFilesMap) :
    save_jit_module_to_bytes g module extra_files =
      save_jit_module_to_bytes g2 module extra_files := by
  simp only [save_jit_module_to_bytes, getOptionsFromGlobal, h]

/-- Witness for the amended C5 theorem: two global states that differ in hook
registration but agree on options produce identical bytes. -/
theorem save_deterministic_modulo_options_witness :
    gHooked.options = gNoDebug.options ∧
      save_jit_module_to_bytes gHooked exJitModule [] =
        save_jit_module_to_bytes gNoDebug exJitModule [] :=
  ⟨rfl, save_deterministic_modulo_options gHooked gNoDebug rfl exJitModule []⟩

/-- One application of `register_flatbuffer_all` is a fixed point: applying it
to an already-registered state changes nothing and returns `true` again. -/
theorem register_flatbuffer_all_fix (g : GlobalState) :
    register_flatbuffer_all (register_flatbuffer_all g).2 = register_flatbuffer_all g := rfl

/-- C6: registration is idempotent — calling `register_flatbuffer_all` any
positive number of times leaves the process-global hook state exactly as one
call does: the loader and serializer are registered and the two
function-pointer hooks installed once, with no further observable effect. -/
theorem register_flatbuffer_all_idempotent (g : GlobalState) (n : Nat) :
    registerAllIter (n + 1) g = registerAllIter 1 g := by
  induction n generalizing g with
  | zero => rfl
  | succ n ih =>
    calc registerAllIter (n + 1 + 1) g
        = registerAllIter (n + 1) (register_flatbuffer_all g).2 := rfl
      _ = registerAllIter 1 (register_flatbuffer_all g).2 := ih _
      _ = (register_flatbuffer_all (register_flatbuffer_all g).2).2 := rfl
      _ = (register_flatbuffer_all g).2 := by rw [register_flatbuffer_all_fix]
      _ = registerAllIter 1 g := rfl

/-- C7: for a portable module whose declared bytecode version equals the
current runtime version, the upgrader stage is a no-op (the whole module, in
particular its instruction stream, is unchanged), and running the stage twice
yields nothing beyond running it once. -/
theorem upgrader_noop_on_current_version (p : PortableModule)
    (h : p.version = kCurrentVersion) :
    applyUpgraders p = p ∧
      applyUpgraders (applyUpgraders p) = applyUpgraders p := by
  have h1 : applyUpgraders p = p := by simp [applyUpgraders, h]
  exact ⟨h1, by rw [h1, h1]⟩

/-- A portable module already at the current bytecode version. -/
def exPortable : PortableModule := ⟨[⟨"aten::add", 2⟩], 9⟩

/-- Witness for C7 at a concrete current-version portable module. -/
theorem upgrader_noop_on_current_version_witness :
    exPortable.version = kCurrentVersion ∧
      (applyUpgraders exPortable = exPortable ∧
        applyUpgraders (applyUpgraders exPortable) = applyUpgraders exPortable) :=
  ⟨rfl, upgrader_noop_on_current_version exPortable rfl⟩

/-- C8: the write-callback save entry point invokes the writer function
exactly once, with the fully encoded artifact and its total length — the same
bytes `save_jit_module_to_bytes` produces for the same module, map and global
state.  The statement holds for an arbitrary writer over an arbitrary state
type, so the whole observable effect is that single invocation. -/
theorem write_callback_invoked_once_with_full_artifact {σ : Type} (g : GlobalState)
    (module : JitModule) (extra_files : ExtraFilesMap) (flag : Bool)
    (writer_func : Bytes → Nat → σ → σ) (s : σ) :
    save_jit_module_to_write_func g module extra_files flag writer_func s =
      writer_func (save_jit_module_to_bytes g module extra_files)
        (save_jit_module_to_bytes g module extra_files).length s := rfl

/-- C9: the `save_mobile_debug_info` flag is inert — the write-callback save
entry point behaves identically whether the flag is true or false. -/
theorem debug_info_flag_inert {σ : Type} (g : GlobalState) (module : JitModule)
    (extra_files : ExtraFilesMap) (writer_func : Bytes → Nat → σ → σ) (s : σ) :
    save_jit_module_to_write_func g module extra_files true writer_func s =
      save_jit_module_to_write_func g module extra_files false writer_func s := rfl

/-- C1: round-trip — loading the bytes produced by `save_jit_module_to_bytes`
into a fresh output map yields a module behaviorally equivalent to the saved
one (same source bundle, constant pool and object state), and the output map
binds exactly the saved extra-files entries with identical content. -/
theorem jit_save_load_roundtrip (g : GlobalState) (M : JitModule) (F : ExtraFilesMap) :
    ∃ M2 F2,
      parse_and_initialize_jit_module (save_jit_module_to_bytes g M F)
          (save_jit_module_to_bytes g M F).length [] = .ok (M2, F2) ∧
        M2.src = M.src ∧ M2.consts = M.consts ∧ M2.state = M.state ∧
        ∀ k, F2.lookup k = F.lookup k := by
  have hsave : save_jit_module_to_bytes g M F = encodeArtifact
      ⟨kCurrentVersion, (jitModuleToMobile M (getOptionsFromGlobal g)).bytecode, M.state,
        F, M.src, M.consts⟩ := rfl
  refine ⟨⟨M.src, M.consts, M.state, some (save_jit_module_to_bytes g M F)⟩,
    parseExtraFiles F [], ?_, rfl, rfl, rfl, fun k => ?_⟩
  · rw [hsave, parse_enc]
    simp [kMinSupportedVersion, kMaxSupportedVersion, kCurrentVersion]
  · rw [lookup_parseExtraFiles]
    simp

/-- C2: truncating an encoded artifact at any offset before its declared
table-of-contents makes the load fail with `FormatError`; no module is built
from the partial data. -/
theorem truncation_yields_format_error (a : Artifact) (k : Nat)
    (h : k < tocOffsetOf (encodeArtifact a)) (sz : Nat) (ef : ExtraFilesMap) :
    parse_and_initialize_jit_module ((encodeArtifact a).take k) sz ef =
      .error .formatError := by
  have ht : tocOffsetOf (encodeArtifact a) = headerSize := rfl
  rw [ht] at h
  have hlen : ((encodeArtifact a).take k).length < headerSize := by
    rw [List.length_take]
    omega
  have hdec : decodeArtifact ((encodeArtifact a).take k) = .error .formatError := by
    simp only [decodeArtifact]
    rw [if_pos hlen]
  rw [parse_general, hdec]
  rfl

/-- Artifact with no bytecode, no extra files, no sources and no constants. -/
def sampleArtifact : Artifact := ⟨9, [], 0, [], [], []⟩

/-- Witness for C2: truncating the encoding of `sampleArtifact` to its first
three symbols yields `FormatError`. -/
theorem truncation_yields_format_error_witness :
    3 < tocOffsetOf (encodeArtifact sampleArtifact) ∧
      parse_and_initialize_jit_module ((encodeArtifact sampleArtifact).take 3) 3 [] =
        .error .formatError :=
  ⟨by decide, truncation_yields_format_error sampleArtifact 3 (by decide) 3 []⟩

/-- C3: loading an artifact merges its extra-files table into the
caller-supplied map with insert-if-absent semantics — every key already bound
keeps its binding, every artifact entry whose name is absent is inserted, and
all other keys stay absent. -/
theorem extra_files_merge_semantics (a : Artifact) (sz : Nat) (ef : ExtraFilesMap)
    (m : JitModule) (ef2 : ExtraFilesMap)
    (h : parse_and_initialize_jit_module (encodeArtifact a) sz ef = .ok (m, ef2))
    (k : String) :
    ef2.lookup k = (ef.lookup k).or (a.extraFiles.lookup k) := by
  rw [parse_enc] at h
  by_cases hv : a.version < kMinSupportedVersion ∨ kMaxSupportedVersion < a.version
  · rw [if_pos hv] at h
    exact absurd h (by simp)
  · rw [if_neg hv] at h
    simp only [Except.ok.injEq, Prod.mk.injEq] at h
    rw [← h.2, lookup_parseExtraFiles]

/-- Artifact carrying one extra file. -/
def artifactMeta : Artifact := ⟨9, [], 0, [("meta.txt", [118, 49])], [], []⟩

/-- Caller map already holding a different file. -/
def mapOther : ExtraFilesMap := [("other.txt", [120])]

/-- Module reconstructed from `artifactMeta`. -/
def moduleFromMeta : JitModule := ⟨[], [], 0, some (encodeArtifact artifactMeta)⟩

/-- Result of merging `artifactMeta`'s extra files into `mapOther`. -/
def mergedMaps : ExtraFilesMap := [("other.txt", [120]), ("meta.txt", [118, 49])]

/-- Witness for C3 at a concrete artifact and caller map. -/
theorem extra_files_merge_semantics_witness :
    (parse_and_initialize_jit_module (encodeArtifact artifactMeta) 0 mapOther =
        .ok (moduleFromMeta, mergedMaps)) ∧
      mergedMaps.lookup "meta.txt" =
        (mapOther.lookup "meta.txt").or (artifactMeta.extraFiles.lookup "meta.txt") :=
  ⟨by decide, extra_files_merge_semantics artifactMeta 0 mapOther moduleFromMeta mergedMaps
    (by decide) "meta.txt"⟩

/-- C4: every module returned by a successful load holds the input data
buffer, attached via `set_delete_memory`, so the backing memory is retained
for the module's whole lifetime and released only with it. -/
theorem load_attaches_backing_buffer (data : Bytes) (sz : Nat) (ef : ExtraFilesMap)
    (m : JitModule) (ef2 : ExtraFilesMap)
    (h : parse_and_initialize_jit_module data sz ef = .ok (m, ef2)) :
    m.deleteMemory = some data := by
  rw [parse_general] at h
  cases hd : decodeArtifact data with
  | error e =>
    rw [hd] at h
    exact absurd h (by simp [Except.bind])
  | ok a =>
    rw [hd] at h
    simp only [Except.bind] at h
    cases hj : jitModuleFromSourceAndConstants a.state a.jitSources a.jitConstants
        a.version with
    | error e =>
      rw [hj] at h
      exact absurd h (by simp)
    | ok m0 =>
      rw [hj] at h
      simp only [Except.ok.injEq, Prod.mk.injEq] at h
      rw [← h.1]

/-- Module reconstructed from `sampleArtifact`, holding the backing buffer. -/
def sampleModule : JitModule := ⟨[], [], 0, some (encodeArtifact sampleArtifact)⟩

/-- Witness for C4: a concrete successful load whose module carries the
buffer. -/
theorem load_attaches_backing_buffer_witness :
    (parse_and_initialize_jit_module (encodeArtifact sampleArtifact)
        (encodeArtifact sampleArtifact).length [] = .ok (sampleModule, [])) ∧
      sampleModule.deleteMemory = some (encodeArtifact sampleArtifact) :=
  ⟨by decide, load_attaches_backing_buffer (encodeArtifact sampleArtifact)
    (encodeArtifact sampleArtifact).length [] sampleModule [] (by decide)⟩

/-- C10: the JIT source bundle and constant pool extracted during a load flow
only into the format adapter (they become the module's source and constants);
the caller's extra-files map receives exactly the artifact's extra-files
table entries, and a key bound in neither the caller map nor that table — in
particular a source-bundle file name — stays absent. -/
theorem jit_source_channel_separation (a : Artifact) (sz : Nat) (ef : ExtraFilesMap)
    (m : JitModule) (ef2 : ExtraFilesMap)
    (h : parse_and_initialize_jit_module (encodeArtifact a) sz ef = .ok (m, ef2)) :
    m.src = a.jitSources ∧ m.consts = a.jitConstants ∧
      ef2 = parseExtraFiles a.extraFiles ef ∧
      ∀ k, ef.lookup k = none → a.extraFiles.lookup k = none → ef2.lookup k = none := by
  rw [parse_enc] at h
  by_cases hv : a.version < kMinSupportedVersion ∨ kMaxSupportedVersion < a.version
  · rw [if_pos hv] at h
    exact absurd h (by simp)
  · rw [if_neg hv] at h
    simp only [Except.ok.injEq, Prod.mk.injEq] at h
    obtain ⟨h1, h2⟩ := h
    subst h2
    refine ⟨?_, ?_, rfl, fun k hk1 hk2 => ?_⟩
    · rw [← h1]
    · rw [← h1]
    · rw [lookup_parseExtraFiles, hk1, hk2]
      rfl

/-- Artifact whose source bundle holds a file name absent everywhere else. -/
def artifactWithSources : Artifact :=
  ⟨9, [], 0, [("meta.txt", [118])], [("code/m.py", [100])], []⟩

/-- Module reconstructed from `artifactWithSources`. -/
def moduleFromSources : JitModule :=
  ⟨[("code/m.py", [100])], [], 0, some (encodeArtifact artifactWithSources)⟩

/-- Witness for C10 at a concrete artifact with a JIT source file. -/
theorem jit_source_channel_separation_witness :
    (parse_and_initialize_jit_module (encodeArtifact artifactWithSources) 0 [] =
        .ok (moduleFromSources, [("meta.txt", [118])])) ∧
      (moduleFromSources.src = artifactWithSources.jitSources ∧
        moduleFromSources.consts = artifactWithSources.jitConstants ∧
        [("meta.txt", [118])] = parseExtraFiles artifactWithSources.extraFiles [] ∧
        ∀ k, List.lookup k ([] : ExtraFilesMap) = none →
          artifactWithSources.extraFiles.lookup k = none →
          List.lookup k [("meta.txt", ([118] : Bytes))] = none) :=
  ⟨by decide, jit_source_channel_separation artifactWithSources 0 [] moduleFromSources
    [("meta.txt", [118])] (by decide)⟩
